import Mathlib

/-!
Verification of the Pixshop client-side edit-history / mask-painting core.

The definitions below are a shallow embedding of the repository's source:
* `src/App.tsx` — component-local state (`useState` hooks), `addToHistory`,
  `handleUndo`, `handleRedo`, `handleClear`, `handleGenAction`,
  `handleMagicFill`, `handleAnalysis`, `handleMaskDraw`, `dataURLtoFile`,
  the session save/load effects;
* `src/utils/storage.ts` — `saveSession` / `loadSession` / `clearSession`
  over an IndexedDB object store keyed by the record's `id`;
* `src/services/geminiService.ts` — the `generateVeoVideo` polling loop;
* `src/components/MagicPanel.tsx` — the Magic Fill submit-button gate.

Remote API results are passed in as explicit `Except` values (the code
`await`s them inside `try`/`catch`); timing (toast auto-dismissal, promise
scheduling) is abstracted away.  Canvas raster state is modelled as the
list of drawing commands issued against the 2d context, with an explicit
pixel-coverage/alpha-compositing semantics (`alphaAt`) mirroring the
canvas default `source-over` operator and the paint colour
`rgba(255,255,255,0.8)` used by `handleMaskDraw`.
-/

namespace Pixshop

/-- A `File` value: name, mime type and (base64) payload.  Mirrors the
`File` objects produced by `dataURLtoFile` in `src/App.tsx`. -/
structure FileModel where
  name : String
  mime : String
  data : String
deriving DecidableEq, Repr

/-- Toast severity, from `ToastContainer`'s `ToastType`. -/
inductive ToastType where
  | success
  | error
  | info
deriving DecidableEq, Repr

/-- One toast notification (`addToast` in `src/App.tsx`; the numeric id and
the 4-second auto-dismiss timer are timing details left out). -/
structure Toast where
  message : String
  ttype : ToastType
deriving DecidableEq, Repr

/-- One drawing command issued against the mask canvas's 2d context by
`handleMaskDraw` (`src/App.tsx` lines 272-283): a filled disc of diameter
`d` stamped on pointer-down, or a stroked segment of width `w` with round
caps on pointer-move. -/
inductive PaintOp where
  | circle (cx cy d : Rat)
  | seg (x1 y1 x2 y2 w : Rat)
deriving DecidableEq, Repr

/-- The mask canvas raster, as the ordered list of drawing commands applied
to it since it was last blank. -/
abbrev Raster := List PaintOp

/-- A point of the paint surface. -/
abbrev Pixel := Rat × Rat

def sq (a : Rat) : Rat := a * a

/-- Geometric coverage of a pixel by one drawing command.  A disc stamped by
`ctx.arc(x, y, brushSize/2, ...)` covers points within `d/2` of its centre;
a segment stroked with `lineWidth = brushSize` and `lineCap = 'round'`
covers the capsule of radius `w/2` around it.  All comparisons are kept in
cleared (denominator-free) form. -/
def coversPixel : PaintOp → Pixel → Bool
  | .circle cx cy d, (px, py) =>
      if 4 * (sq (px - cx) + sq (py - cy)) ≤ sq d then true else false
  | .seg x1 y1 x2 y2 w, (px, py) =>
      let dx := x2 - x1
      let dy := y2 - y1
      let apx := px - x1
      let apy := py - y1
      let denom := sq dx + sq dy
      let tnum := apx * dx + apy * dy
      if denom = 0 then
        if 4 * (sq apx + sq apy) ≤ sq w then true else false
      else if tnum ≤ 0 then
        if 4 * (sq apx + sq apy) ≤ sq w then true else false
      else if denom ≤ tnum then
        if 4 * (sq (px - x2) + sq (py - y2)) ≤ sq w then true else false
      else
        if 4 * ((sq apx + sq apy) * denom - sq tnum) ≤ sq w * denom then true
        else false

/-- Alpha of the paint colour `rgba(255,255,255,0.8)` used by both the
`fillStyle` and `strokeStyle` of `handleMaskDraw`. -/
def srcAlpha : Rat := 4 / 5

/-- Canvas default `source-over` compositing of the paint colour onto a
destination pixel of alpha `dst`: the result alpha is
`srcAlpha + (1 - srcAlpha) * dst`. -/
def over (dst : Rat) : Rat := srcAlpha + (1 - srcAlpha) * dst

/-- Resulting alpha of a raster at a pixel: commands are composited in
order onto an initially transparent canvas. -/
def alphaAt (r : Raster) (p : Pixel) : Rat :=
  r.foldl (fun a op => if coversPixel op p then over a else a) 0

/-- The component-local state of `App` (`src/App.tsx` lines 66-102) that
the history / masking core reads and writes.  `history`/`historyIndex` are
the `useState` pair backing the edit history; `maskRaster`, `isDrawing` and
`lastPos` model the mask canvas content, `isDrawingRef` and
`lastPositionRef`; `consoleLog` receives what the code sends to
`console.error`.  Purely presentational fields (theme, active tool, text
prompts, object URLs) are not read by any operation modelled here and are
omitted. -/
structure AppState where
  history : List FileModel
  historyIndex : Int
  editHotspot : Option (Int × Int)
  displayHotspot : Option (Rat × Rat)
  crop : Option String
  completedCrop : Option String
  isMasking : Bool
  maskDataUrl : Option Raster
  brushSize : Rat
  videoResult : Option String
  analysisResult : Option String
  groundingChunks : Option (List String)
  toasts : List Toast
  isLoading : Bool
  isDrawing : Bool
  lastPos : Option (Rat × Rat)
  maskRaster : Raster
  consoleLog : List String
deriving DecidableEq, Repr

/-- The initial state of all the `useState`/`useRef` hooks
(`src/App.tsx` lines 66-102). -/
def initialState : AppState where
  history := []
  historyIndex := -1
  editHotspot := none
  displayHotspot := none
  crop := none
  completedCrop := none
  isMasking := false
  maskDataUrl := none
  brushSize := 40
  videoResult := none
  analysisResult := none
  groundingChunks := none
  toasts := []
  isLoading := false
  isDrawing := false
  lastPos := none
  maskRaster := []
  consoleLog := []

/-- `currentImage = history[historyIndex] ?? null` (`src/App.tsx` line 68);
a negative or out-of-range index yields `undefined`, hence `none`. -/
def currentImage (s : AppState) : Option FileModel :=
  if s.historyIndex < 0 then none else s.history.get? s.historyIndex.toNat

/-- `addToast(message, type)` (`src/App.tsx` lines 170-174): appends a
toast (the id and the removal timer are timing details). -/
def addToast (s : AppState) (message : String) (ttype : ToastType) : AppState :=
  { s with toasts := s.toasts ++ [{ message := message, ttype := ttype }] }

/-- `addToHistory` (`src/App.tsx` lines 178-189):
`newHist = history.slice(0, historyIndex + 1); newHist.push(file);`
then `setHistory(newHist); setHistoryIndex(newHist.length - 1);` and the
block of transient-state resets, ending with the "Layer added" toast.
For the reachable cursor range `historyIndex >= -1`,
`slice(0, historyIndex + 1)` is `take (historyIndex + 1).toNat`.
Note that `groundingChunks` is not among the fields reset. -/
def addToHistory (s : AppState) (file : FileModel) : AppState :=
  let newHist := s.history.take (s.historyIndex + 1).toNat ++ [file]
  { s with
    history := newHist
    historyIndex := (newHist.length : Int) - 1
    editHotspot := none
    displayHotspot := none
    crop := none
    completedCrop := none
    isMasking := false
    maskDataUrl := none
    videoResult := none
    analysisResult := none
    toasts := s.toasts ++ [{ message := "Layer added", ttype := ToastType.success }] }

/-- `handleUndo` (`src/App.tsx` line 290):
`historyIndex > 0 && setHistoryIndex(historyIndex - 1)`. -/
def handleUndo (s : AppState) : AppState :=
  if 0 < s.historyIndex then { s with historyIndex := s.historyIndex - 1 } else s

/-- `handleRedo` (`src/App.tsx` line 291):
`historyIndex < history.length - 1 && setHistoryIndex(historyIndex + 1)`. -/
def handleRedo (s : AppState) : AppState :=
  if s.historyIndex < (s.history.length : Int) - 1 then
    { s with historyIndex := s.historyIndex + 1 }
  else s

/-- Mime extraction of `dataURLtoFile` (`src/App.tsx` lines 47-48): the
match of `/:(.*?);/` against the data-URL header — the (possibly empty)
text between the first `:` and the first following `;`; the code throws
when there is no match or the captured group is empty. -/
def parseMimeType (header : String) : Option String :=
  match header.splitOn ":" with
  | [] => none
  | [_] => none
  | _ :: rest =>
    let after := String.intercalate ":" rest
    match after.splitOn ";" with
    | [] => none
    | [_] => none
    | m :: _ => if m = "" then none else some m

/-- `dataURLtoFile` (`src/App.tsx` lines 44-54).  The base64 decoding into
a byte array is kept as the raw base64 text; the thrown `Error`s become
`Except.error` of the same message. -/
def dataURLtoFile (dataurl filename : String) : Except String FileModel :=
  let arr := dataurl.splitOn ","
  if arr.length < 2 then Except.error "Invalid data URL"
  else
    match parseMimeType ((arr.get? 0).getD "") with
    | none => Except.error "Could not parse MIME type from data URL"
    | some mime =>
      Except.ok { name := filename, mime := mime, data := (arr.get? 1).getD "" }

/-- `handleError` (`src/App.tsx` line 176): surface a failure message as an
error toast. -/
def handleError (s : AppState) (msg : String) : AppState :=
  addToast s msg ToastType.error

/-- `handleGenAction` (`src/App.tsx` lines 192-199).  The awaited remote
`action()` is passed in as its result `res`; the `try` block converts the
returned data URL to a `File` and appends it to the history, the `catch`
block surfaces the failure as a toast; `finally` clears the busy flag. -/
def handleGenAction (s : AppState) (res : Except String String)
    (filename : String) : AppState :=
  match currentImage s with
  | none => s
  | some _ =>
    match res with
    | Except.error msg => { handleError { s with isLoading := true } msg with isLoading := false }
    | Except.ok url =>
      match dataURLtoFile url filename with
      | Except.error msg =>
          { handleError { s with isLoading := true } msg with isLoading := false }
      | Except.ok file => { addToHistory s file with isLoading := false }

/-- Outcome of a Magic Fill submission: either rejected before any remote
work, or the remote `generateMagicFillImage` call is dispatched with the
exported mask and the instruction text. -/
inductive FillAction where
  | rejectNoMask
  | invokeRemote (mask : Raster) (instruction : String)
deriving DecidableEq, Repr

/-- `handleMagicFill` (`src/App.tsx` lines 207-224): the only local check
is `if (!maskDataUrl)`, which produces the "Please draw a mask first."
error toast and returns.  Otherwise the mask image is redrawn onto a
black-filled canvas at the snapshot's natural size and the remote fill is
invoked through `handleGenAction`; the instruction `p` is forwarded
unexamined, and the painted-pixel content of the mask is never inspected.
The black-background re-rasterisation is kept abstract: the dispatched
payload is the exported raster itself. -/
def handleMagicFill (s : AppState) (p : String) : AppState × FillAction :=
  match s.maskDataUrl with
  | none => (addToast s "Please draw a mask first." ToastType.error, FillAction.rejectNoMask)
  | some m => (s, FillAction.invokeRemote m p)

/-- JavaScript's `String.prototype.trim`: strip leading and trailing
whitespace.  Written over the character list so that it evaluates by
structural recursion. -/
def jsTrim (s : String) : String :=
  String.mk
    (((s.data.dropWhile Char.isWhitespace).reverse.dropWhile
        Char.isWhitespace).reverse)

/-- The Magic Fill submit button's `disabled` expression
(`src/components/MagicPanel.tsx`, in the `GeneratePanel.tsx` source
bundle, line 223): `isLoading || !magicPrompt.trim() || !hasMask` — a
trimmed-empty instruction string is falsy. -/
def magicSubmitDisabled (isLoading : Bool) (magicPrompt : String)
    (hasMask : Bool) : Bool :=
  isLoading || (jsTrim magicPrompt == "") || !hasMask

/-- `handleAnalysis` (`src/App.tsx` lines 239-247): on success stores the
analysis text and the grounding chunks; on failure surfaces a toast. -/
def handleAnalysis (s : AppState)
    (res : Except String (String × Option (List String))) : AppState :=
  match currentImage s with
  | none => s
  | some _ =>
    match res with
    | Except.ok tc =>
        { s with
          analysisResult := some tc.1
          groundingChunks := tc.2
          isLoading := false }
    | Except.error msg =>
        { handleError { s with isLoading := true } msg with isLoading := false }

/-- Pointer/touch events reaching `handleMaskDraw` (`src/App.tsx` line
263): `down` covers `mousedown`/`touchstart`, `move` covers
`mousemove`/`touchmove`, and `up` covers every other bound event type
(`mouseup`, `mouseleave`, `touchend`), which all fall into the final
`else` branch. -/
inductive MaskEvent where
  | down (x y : Rat)
  | move (x y : Rat)
  | up (x y : Rat)
deriving DecidableEq, Repr

/-- `handleMaskDraw` (`src/App.tsx` lines 263-288).  The guard
`if (!isMasking || !maskCanvasRef.current) return` is modelled with the
canvas assumed mounted.  On `down`: set the stroke flag, record the
anchor, stamp a disc of diameter `brushSize`.  On `move`: ignored unless
the stroke flag is set, else stroke a round-capped segment of width
`brushSize` from the last recorded point.  On any other event: clear the
stroke flag and export the raster as the mask data URL — without
consulting the stroke flag. -/
def handleMaskDraw (s : AppState) (e : MaskEvent) : AppState :=
  if s.isMasking = false then s
  else
    match e with
    | MaskEvent.down x y =>
        { s with
          isDrawing := true
          lastPos := some (x, y)
          maskRaster := s.maskRaster ++ [PaintOp.circle x y s.brushSize] }
    | MaskEvent.move x y =>
        if s.isDrawing = false then s
        else
          match s.lastPos with
          | none => s
          | some lp =>
              { s with
                maskRaster := s.maskRaster ++ [PaintOp.seg lp.1 lp.2 x y s.brushSize]
                lastPos := some (x, y) }
    | MaskEvent.up _ _ =>
        { s with isDrawing := false, maskDataUrl := some s.maskRaster }

/-- The persisted session record (`src/utils/storage.ts`, `SessionState`):
`{ id, history, currentIndex, timestamp }`. -/
structure SessionState where
  id : String
  history : List FileModel
  currentIndex : Int
  timestamp : Int
deriving DecidableEq, Repr

/-- The IndexedDB object store `'session'` of `PixshopDB`, keyed by the
record's `id` (`keyPath: 'id'`). -/
abbrev SessionStore := List (String × SessionState)

/-- `store.put(v)`: insert or replace the record whose key equals `v.id`. -/
def storePut (st : SessionStore) (v : SessionState) : SessionStore :=
  (v.id, v) :: st.filter (fun kv => !(kv.1 == v.id))

/-- `store.get(k)`: look up the record stored under `k`. -/
def storeGet (st : SessionStore) (k : String) : Option SessionState :=
  (st.find? (fun kv => kv.1 == k)).map (fun kv => kv.2)

/-- `store.delete(k)`: remove the record stored under `k`. -/
def storeDelete (st : SessionStore) (k : String) : SessionStore :=
  st.filter (fun kv => !(kv.1 == k))

/-- `saveSession` (`src/utils/storage.ts` lines 337-357): `put`s the single
record keyed `'current_session'` with the given history, cursor and the
current time. -/
def saveSession (st : SessionStore) (history : List FileModel)
    (currentIndex : Int) (now : Int) : SessionStore :=
  storePut st
    { id := "current_session", history := history, currentIndex := currentIndex,
      timestamp := now }

/-- `loadSession` (`src/utils/storage.ts` lines 359-371):
`store.get('current_session')`, `null` when absent. -/
def loadSession (st : SessionStore) : Option SessionState :=
  storeGet st "current_session"

/-- `clearSession` (`src/utils/storage.ts` lines 373-383):
`store.delete('current_session')`. -/
def clearSession (st : SessionStore) : SessionStore :=
  storeDelete st "current_session"

/-- `handleClear` (`src/App.tsx` line 292):
`await clearSession(); setHistory([]); setHistoryIndex(-1);`. -/
def handleClear (s : AppState) (st : SessionStore) : AppState × SessionStore :=
  ({ s with history := [], historyIndex := -1 }, clearSession st)

/-- Guard of the save-session effect (`src/App.tsx` line 121):
`if (history.length > 0) saveSession(...)`. -/
def saveInvoked (s : AppState) : Bool :=
  decide (0 < s.history.length)

/-- The save-session effect (`src/App.tsx` lines 120-122), which runs
after every change of `[history, historyIndex]`.  `res` is the settled
outcome of the fire-and-forget `saveSession` promise: `none` when it
resolved, `some msg` when it rejected — in which case the rejection is
passed to `console.error` and nothing else happens; the store transaction
aborts, leaving the persisted state as it was.  The in-memory component
state never depends on the outcome. -/
def saveEffect (s : AppState) (st : SessionStore) (now : Int)
    (res : Option String) : AppState × SessionStore :=
  if 0 < s.history.length then
    match res with
    | some msg => ({ s with consoleLog := s.consoleLog ++ [msg] }, st)
    | none => (s, saveSession st s.history s.historyIndex now)
  else (s, st)

/-- The fixed sleep of the Veo polling loop:
`setTimeout(resolve, 5000)` (`src/services/geminiService.ts` line 606). -/
def pollIntervalMs : Nat := 5000

/-- The polling loop of `generateVeoVideo`
(`src/services/geminiService.ts` lines 605-608):
`while (!operation.done) { await sleep(5000); operation = await getVideosOperation(...) }`.
`step n` is the observed outcome of examining the operation after `n`
re-fetches: `ok true`/`ok false` for the `done` flag, `error` when the
re-fetch request itself throws.  The loop has no bound of its own; `fuel`
is observation depth only — `none` means the loop is still running after
`fuel` checks.  On termination the result carries the index at which
`done` (or the failure) was observed together with the list of sleep
durations performed. -/
def pollVeo (step : Nat → Except String Bool) :
    Nat → Nat → Option (Except String Nat × List Nat)
  | 0, _ => none
  | fuel + 1, n =>
    match step n with
    | Except.error e => some (Except.error e, [])
    | Except.ok true => some (Except.ok n, [])
    | Except.ok false =>
      match pollVeo step fuel (n + 1) with
      | none => none
      | some r => some (r.1, pollIntervalMs :: r.2)

/-! ### Concrete fixtures used by witnesses and counterexamples -/

def fA : FileModel := { name := "a.png", mime := "image/png", data := "AAAA" }

def fB : FileModel := { name := "b.png", mime := "image/png", data := "BBBB" }

def fC : FileModel := { name := "c.png", mime := "image/png", data := "CCCC" }

def fD : FileModel := { name := "d.png", mime := "image/png", data := "DDDD" }

/-! ### History store: branch-cut and invariant -/

/-- The Store invariant of spec §4.1: `-1 <= cursor <= length-1` and
`length == 0 ⇔ cursor == -1`. -/
def historyInv (s : AppState) : Prop :=
  -1 ≤ s.historyIndex ∧ s.historyIndex ≤ (s.history.length : Int) - 1 ∧
    (s.history.length = 0 ↔ s.historyIndex = -1)

/-- The four history-store operations of spec §4.1, as dispatched by the
`App` component: `append` is `addToHistory`, `undo`/`redo` are
`handleUndo`/`handleRedo`, `reset` is the state part of `handleClear`. -/
inductive HistOp where
  | append (f : FileModel)
  | undo
  | redo
  | reset
deriving DecidableEq, Repr

def applyHistOp (s : AppState) : HistOp → AppState
  | HistOp.append f => addToHistory s f
  | HistOp.undo => handleUndo s
  | HistOp.redo => handleRedo s
  | HistOp.reset => { s with history := [], historyIndex := -1 }

theorem historyInv_addToHistory (s : AppState) (f : FileModel)
    (h : historyInv s) : historyInv (addToHistory s f) := by
  obtain ⟨h1, h2, h3⟩ := h
  unfold historyInv addToHistory
  simp only [List.length_append, List.length_take, List.length_cons,
    List.length_nil]
  omega

theorem handleUndo_history (s : AppState) : (handleUndo s).history = s.history := by
  unfold handleUndo
  split <;> rfl

theorem handleUndo_index (s : AppState) :
    (handleUndo s).historyIndex =
      if 0 < s.historyIndex then s.historyIndex - 1 else s.historyIndex := by
  unfold handleUndo
  split <;> simp_all

theorem handleRedo_history (s : AppState) : (handleRedo s).history = s.history := by
  unfold handleRedo
  split <;> rfl

theorem handleRedo_index (s : AppState) :
    (handleRedo s).historyIndex =
      if s.historyIndex < (s.history.length : Int) - 1 then s.historyIndex + 1
      else s.historyIndex := by
  unfold handleRedo
  split <;> simp_all

theorem historyInv_handleUndo (s : AppState) (h : historyInv s) :
    historyInv (handleUndo s) := by
  obtain ⟨h1, h2, h3⟩ := h
  unfold historyInv
  rw [handleUndo_history, handleUndo_index]
  split <;> omega

theorem historyInv_handleRedo (s : AppState) (h : historyInv s) :
    historyInv (handleRedo s) := by
  obtain ⟨h1, h2, h3⟩ := h
  unfold historyInv
  rw [handleRedo_history, handleRedo_index]
  split <;> omega

theorem historyInv_applyHistOp (s : AppState) (op : HistOp)
    (h : historyInv s) : historyInv (applyHistOp s op) := by
  cases op with
  | append f => exact historyInv_addToHistory s f h
  | undo => exact historyInv_handleUndo s h
  | redo => exact historyInv_handleRedo s h
  | reset =>
      exact ⟨by simp [applyHistOp], by simp [applyHistOp], by simp [applyHistOp]⟩

theorem historyInv_foldl (ops : List HistOp) (s : AppState)
    (h : historyInv s) : historyInv (ops.foldl applyHistOp s) := by
  induction ops generalizing s with
  | nil => exact h
  | cons op t ih => exact ih (applyHistOp s op) (historyInv_applyHistOp s op h)

theorem historyInv_initialState : historyInv initialState := by
  refine ⟨by simp [initialState], by simp [initialState], by simp [initialState]⟩

/-- C1: appending from cursor `c` (with `0 <= c <= length-1`) keeps exactly
the snapshots at indices `0..c`, pushes the new snapshot at index `c+1`,
and sets the cursor to the new last index; the new length is `c+2`, so
exactly the `length-(c+1)` snapshots ahead of the cursor are discarded and
redo is unavailable afterward (`cursor = length-1`). -/
theorem addToHistory_branch_cut (s : AppState) (f : FileModel)
    (h0 : 0 ≤ s.historyIndex) (h1 : s.historyIndex < (s.history.length : Int)) :
    (addToHistory s f).history.length = s.historyIndex.toNat + 2 ∧
    (addToHistory s f).historyIndex = ((addToHistory s f).history.length : Int) - 1 ∧
    (∀ j : Nat, j ≤ s.historyIndex.toNat →
      (addToHistory s f).history[j]? = s.history[j]?) ∧
    (addToHistory s f).history[s.historyIndex.toNat + 1]? = some f ∧
    (addToHistory s f).history.length + (s.history.length - (s.historyIndex.toNat + 1))
      = s.history.length + 1 := by
  have hn : (s.historyIndex + 1).toNat = s.historyIndex.toNat + 1 := by omega
  have hle : s.historyIndex.toNat + 1 ≤ s.history.length := by omega
  have htake : (s.history.take (s.historyIndex + 1).toNat).length
      = s.historyIndex.toNat + 1 := by
    rw [List.length_take]
    omega
  have hlen : (addToHistory s f).history.length = s.historyIndex.toNat + 2 := by
    simp only [addToHistory, List.length_append, htake, List.length_cons,
      List.length_nil]
  refine ⟨hlen, ?_, ?_, ?_, ?_⟩
  · simp only [addToHistory, List.length_append, htake, List.length_cons,
      List.length_nil]
  · intro j hj
    show (s.history.take (s.historyIndex + 1).toNat ++ [f])[j]? = s.history[j]?
    rw [List.getElem?_append_left (by omega), List.getElem?_take_of_lt (by omega)]
  · show (s.history.take (s.historyIndex + 1).toNat ++ [f])[s.historyIndex.toNat + 1]?
        = some f
    rw [← htake, List.getElem?_concat_length]
  · omega

def exS1 : AppState :=
  { initialState with history := [fA, fB, fC], historyIndex := 1 }

/-- C1 witness: from history `[A,B,C]` with cursor `1` (one undo back from
the tip), appending `D` yields length `3`, cursor `2`, with `D` at index
`2` — exactly one snapshot (`C`) was discarded. -/
theorem addToHistory_branch_cut_witness :
    (addToHistory exS1 fD).history.length = 3 ∧
    (addToHistory exS1 fD).history[2]? = some fD ∧
    (addToHistory exS1 fD).historyIndex = 2 := by
  have h := addToHistory_branch_cut exS1 fD (by decide) (by decide)
  refine ⟨by simpa using h.1, by simpa using h.2.2.2.1, by decide⟩

/-- C2: from the empty initial state, every sequence of
`append`/`undo`/`redo`/`reset` operations preserves the invariant
`-1 <= cursor <= length-1` with `length = 0 ↔ cursor = -1`; moreover
`undo` and `redo` never modify the sequence, `undo` decrements the cursor
exactly when `cursor > 0` and is a no-op otherwise, and `redo` increments
it exactly when `cursor < length-1` and is a no-op otherwise. -/
theorem history_store_invariant (ops : List HistOp) (s : AppState) :
    historyInv (ops.foldl applyHistOp initialState) ∧
    (handleUndo s).history = s.history ∧
    (handleRedo s).history = s.history ∧
    (0 < s.historyIndex → (handleUndo s).historyIndex = s.historyIndex - 1) ∧
    (s.historyIndex ≤ 0 → handleUndo s = s) ∧
    (s.historyIndex < (s.history.length : Int) - 1 →
      (handleRedo s).historyIndex = s.historyIndex + 1) ∧
    ((s.history.length : Int) - 1 ≤ s.historyIndex → handleRedo s = s) := by
  refine ⟨historyInv_foldl ops initialState historyInv_initialState,
    ?_, ?_, ?_, ?_, ?_, ?_⟩
  · unfold handleUndo; split <;> rfl
  · unfold handleRedo; split <;> rfl
  · intro h; unfold handleUndo; rw [if_pos h]
  · intro h; unfold handleUndo; rw [if_neg (by omega)]
  · intro h; unfold handleRedo; rw [if_pos h]
  · intro h; unfold handleRedo; rw [if_neg (by omega)]

def exUndoState : AppState :=
  { initialState with history := [fA, fB], historyIndex := 1 }

/-- C2 witness: with history `[A,B]` and cursor `1`, `undo` moves the
cursor to `0` without touching the sequence, and `redo` at the tip is a
no-op; the invariant holds after `[append A, append B, undo]`. -/
theorem history_store_invariant_witness :
    (handleUndo exUndoState).historyIndex = 0 ∧
    (handleUndo exUndoState).history = exUndoState.history ∧
    handleRedo exUndoState = exUndoState ∧
    historyInv ([HistOp.append fA, HistOp.append fB, HistOp.undo].foldl
      applyHistOp initialState) := by
  have h := history_store_invariant [HistOp.append fA, HistOp.append fB,
    HistOp.undo] exUndoState
  refine ⟨?_, h.2.1, h.2.2.2.2.2.2 (by decide), h.1⟩
  have h4 := h.2.2.2.1 (by decide)
  simpa using h4

/-! ### Transient-state invalidation on append -/

def cexAnalysisState : AppState :=
  { initialState with history := [fA], historyIndex := 0 }

/-- C3 counterexample: after a successful image analysis stored grounding
chunks, appending a new snapshot leaves `groundingChunks` populated — a
cached analysis result referring to the previous current image survives
the append, so not all such state is cleared. -/
theorem addToHistory_groundingChunks_cex :
    (addToHistory (handleAnalysis cexAnalysisState
        (Except.ok ("a cat on a sofa", some ["unsplash.com"]))) fB).groundingChunks
      = some ["unsplash.com"] ∧
    some ["unsplash.com"] ≠ (none : Option (List String)) := by
  exact ⟨rfl, by simp⟩

/-- C3 (amended): every append clears the edit hotspot, the display
hotspot, the crop selection, the completed crop, the masking flag, the
finalized mask, the cached video result and the cached analysis text — but
the cached grounding chunks of the last analysis are left unchanged. -/
theorem addToHistory_clears_transient (s : AppState) (f : FileModel) :
    (addToHistory s f).editHotspot = none ∧
    (addToHistory s f).displayHotspot = none ∧
    (addToHistory s f).crop = none ∧
    (addToHistory s f).completedCrop = none ∧
    (addToHistory s f).isMasking = false ∧
    (addToHistory s f).maskDataUrl = none ∧
    (addToHistory s f).videoResult = none ∧
    (addToHistory s f).analysisResult = none ∧
    (addToHistory s f).groundingChunks = s.groundingChunks :=
  ⟨rfl, rfl, rfl, rfl, rfl, rfl, rfl, rfl, rfl⟩

/-! ### Failure of a remote generation action -/

/-- C6: when the remote call behind any generation action (retouch, magic
fill, filter, adjustment, background removal, generate, video — all of
which are dispatched through `handleGenAction`) fails, the history
sequence, cursor, mask state and all other tool state are left unchanged;
the only visible effect is at most one appended error toast, and no
snapshot is appended. -/
theorem handleGenAction_failure (s : AppState) (msg filename : String) :
    (handleGenAction s (Except.error msg) filename).history = s.history ∧
    (handleGenAction s (Except.error msg) filename).historyIndex = s.historyIndex ∧
    (handleGenAction s (Except.error msg) filename).maskDataUrl = s.maskDataUrl ∧
    (handleGenAction s (Except.error msg) filename).isMasking = s.isMasking ∧
    (handleGenAction s (Except.error msg) filename).maskRaster = s.maskRaster ∧
    (handleGenAction s (Except.error msg) filename).editHotspot = s.editHotspot ∧
    (handleGenAction s (Except.error msg) filename).crop = s.crop ∧
    (handleGenAction s (Except.error msg) filename).completedCrop = s.completedCrop ∧
    (handleGenAction s (Except.error msg) filename).analysisResult = s.analysisResult ∧
    (handleGenAction s (Except.error msg) filename).videoResult = s.videoResult ∧
    ((handleGenAction s (Except.error msg) filename).toasts = s.toasts ∨
      (handleGenAction s (Except.error msg) filename).toasts
        = s.toasts ++ [{ message := msg, ttype := ToastType.error }]) := by
  unfold handleGenAction
  cases h : currentImage s <;> simp [handleError, addToast]

/-! ### Reset and persistence -/

theorem storeGet_delete (st : SessionStore) (k : String) :
    storeGet (storeDelete st k) k = none := by
  unfold storeGet storeDelete
  induction st with
  | nil => rfl
  | cons kv t ih =>
      by_cases h : kv.1 == k
      · rw [List.filter_cons_of_neg (by simp [h])]
        exact ih
      · rw [List.filter_cons_of_pos (by simp [h]), List.find?_cons_of_neg _ (by simp [h])]
        exact ih

theorem storeGet_put (st : SessionStore) (v : SessionState) :
    storeGet (storePut st v) v.id = some v := by
  unfold storeGet storePut
  rw [List.find?_cons_of_pos _ (by simp)]
  rfl

/-- C7: `handleClear` empties the history sequence, sets the cursor to
`-1`, and deletes the persisted session record, so a subsequent
`loadSession` finds nothing; since the sequence is then empty, the save
effect will not re-create the record. -/
theorem handleClear_spec (s : AppState) (st : SessionStore) :
    (handleClear s st).1.history = [] ∧
    (handleClear s st).1.historyIndex = -1 ∧
    loadSession (handleClear s st).2 = none ∧
    saveInvoked (handleClear s st).1 = false :=
  ⟨rfl, rfl, storeGet_delete st "current_session", rfl⟩

/-- C8: the save effect fires exactly when the history sequence is
non-empty; whatever the outcome of the fire-and-forget write, the
in-memory history, cursor, mask and toast list never depend on it (a
failure reaches only the console log, never the user); a failed write
leaves the persisted record as it was, and a successful write makes a
subsequent load return exactly the current sequence and cursor. -/
theorem saveEffect_spec (s : AppState) (st : SessionStore) (now : Int)
    (res : Option String) (msg : String) :
    (saveInvoked s = true ↔ s.history ≠ []) ∧
    (saveEffect s st now res).1.history = s.history ∧
    (saveEffect s st now res).1.historyIndex = s.historyIndex ∧
    (saveEffect s st now res).1.maskDataUrl = s.maskDataUrl ∧
    (saveEffect s st now res).1.toasts = s.toasts ∧
    (saveEffect s st now (some msg)).2 = st ∧
    (s.history = [] → saveEffect s st now res = (s, st)) ∧
    (s.history ≠ [] → loadSession (saveEffect s st now none).2
      = some { id := "current_session", history := s.history,
               currentIndex := s.historyIndex, timestamp := now }) := by
  refine ⟨?_, ?_, ?_, ?_, ?_, ?_, ?_, ?_⟩
  · simp [saveInvoked, List.length_pos]
  · unfold saveEffect
    split <;> cases res <;> rfl
  · unfold saveEffect
    split <;> cases res <;> rfl
  · unfold saveEffect
    split <;> cases res <;> rfl
  · unfold saveEffect
    split <;> cases res <;> rfl
  · unfold saveEffect
    split <;> rfl
  · intro h
    unfold saveEffect
    rw [if_neg (by simp [h])]
  · intro h
    unfold saveEffect
    rw [if_pos (by simpa [List.length_pos] using h)]
    exact storeGet_put st _

def exSaveState : AppState :=
  { initialState with history := [fA], historyIndex := 0 }

/-- C8 witness: with a one-snapshot history the save effect is invoked; a
rejected write only leaves the in-memory state and the store untouched,
while a successful write makes `loadSession` return the current record. -/
theorem saveEffect_spec_witness :
    saveInvoked exSaveState = true ∧
    (saveEffect exSaveState [] 7 (some "QuotaExceededError")).1.history = [fA] ∧
    (saveEffect exSaveState [] 7 (some "QuotaExceededError")).2 = [] ∧
    loadSession (saveEffect exSaveState [] 7 none).2
      = some { id := "current_session", history := [fA], currentIndex := 0,
               timestamp := 7 } := by
  have h := saveEffect_spec exSaveState [] 7 (some "QuotaExceededError")
    "QuotaExceededError"
  have h2 := saveEffect_spec exSaveState [] 7 none "QuotaExceededError"
  exact ⟨h.1.mpr (by decide), by simpa using h.2.1, h.2.2.2.2.2.1,
    h2.2.2.2.2.2.2.2 (by decide)⟩

/-! ### Mask painting: compositing and finalization -/

theorem alphaAt_append_single (r : Raster) (op : PaintOp) (p : Pixel) :
    alphaAt (r ++ [op]) p =
      if coversPixel op p then over (alphaAt r p) else alphaAt r p := by
  unfold alphaAt
  rw [List.foldl_append]
  rfl

/-- The state right after entering masking mode (the `Draw Mask` toggle),
before any stroke: canvas blank, stroke flag clear. -/
def maskingFreshState : AppState :=
  { initialState with isMasking := true }

def twoCircleRaster : Raster := [PaintOp.circle 0 0 40, PaintOp.circle 20 0 40]

theorem cov_c1_origin : coversPixel (PaintOp.circle 0 0 40) (0, 0) = true := by
  simp only [coversPixel]
  rw [if_pos (by norm_num [sq])]

theorem cov_c2_origin : coversPixel (PaintOp.circle 20 0 40) (0, 0) = true := by
  simp only [coversPixel]
  rw [if_pos (by norm_num [sq])]

theorem cov_c1_left : coversPixel (PaintOp.circle 0 0 40) (-20, 0) = true := by
  simp only [coversPixel]
  rw [if_pos (by norm_num [sq])]

theorem cov_c2_left : coversPixel (PaintOp.circle 20 0 40) (-20, 0) = false := by
  simp only [coversPixel]
  rw [if_neg (by norm_num [sq])]

theorem alphaAt_single_origin : alphaAt [PaintOp.circle 0 0 40] (0, 0) = 4 / 5 := by
  show (if coversPixel (PaintOp.circle 0 0 40) (0, 0) = true then over 0 else 0)
      = 4 / 5
  rw [cov_c1_origin]
  norm_num [over, srcAlpha]

theorem alphaAt_two_origin : alphaAt twoCircleRaster (0, 0) = 24 / 25 := by
  show (if coversPixel (PaintOp.circle 20 0 40) (0, 0) = true then
        over (if coversPixel (PaintOp.circle 0 0 40) (0, 0) = true then over 0 else 0)
      else if coversPixel (PaintOp.circle 0 0 40) (0, 0) = true then over 0 else 0)
      = 24 / 25
  rw [cov_c1_origin, cov_c2_origin]
  norm_num [over, srcAlpha]

theorem alphaAt_two_left : alphaAt twoCircleRaster (-20, 0) = 4 / 5 := by
  show (if coversPixel (PaintOp.circle 20 0 40) (-20, 0) = true then
        over (if coversPixel (PaintOp.circle 0 0 40) (-20, 0) = true then over 0 else 0)
      else if coversPixel (PaintOp.circle 0 0 40) (-20, 0) = true then over 0 else 0)
      = 4 / 5
  rw [cov_c1_left, cov_c2_left]
  norm_num [over, srcAlpha]

/-- C4 counterexample: with the default brush (size 40), stamping two
overlapping circles at `(0,0)` and `(20,0)` and finalizing exports a mask
in which a pixel covered by both stamps has alpha `24/25` while a pixel
covered by only one has alpha `4/5`: the paint colour
`rgba(255,255,255,0.8)` is not fully opaque, re-painting an already
painted area raises its opacity, and the overlap shows as a denser seam —
painting is additive, not an idempotent union. -/
theorem mask_overlap_not_idempotent_cex :
    ([MaskEvent.down 0 0, MaskEvent.up 0 0, MaskEvent.down 20 0,
        MaskEvent.up 20 0].foldl handleMaskDraw maskingFreshState).maskDataUrl
      = some twoCircleRaster ∧
    alphaAt twoCircleRaster (0, 0) = 24 / 25 ∧
    alphaAt twoCircleRaster (-20, 0) = 4 / 5 ∧
    ((24 : Rat) / 25 ≠ 4 / 5) ∧ ((24 : Rat) / 25 ≠ 1) := by
  exact ⟨rfl, alphaAt_two_origin, alphaAt_two_left, by norm_num, by norm_num⟩

/-- C4 (amended): mask painting composites the 80%-alpha white paint with
the canvas default source-over rule, so painting a covered pixel maps its
alpha `a` to `4/5 + a/5`: a pixel painted once has alpha `4/5` (not fully
opaque), and re-painting it (overlapping strokes of the same brush)
changes it to `24/25`, so the overlap of two strokes differs from the rest
of their union. -/
theorem mask_paint_accumulates (r : Raster) (op : PaintOp) (p : Pixel)
    (h : coversPixel op p = true) :
    alphaAt (r ++ [op]) p = 4 / 5 + (1 / 5) * alphaAt r p ∧
    (alphaAt r p = 0 → alphaAt (r ++ [op]) p = 4 / 5) ∧
    (alphaAt r p = 4 / 5 → alphaAt (r ++ [op]) p = 24 / 25) := by
  have he : alphaAt (r ++ [op]) p = over (alphaAt r p) := by
    rw [alphaAt_append_single, if_pos h]
  refine ⟨?_, ?_, ?_⟩
  · rw [he]; unfold over srcAlpha; ring
  · intro h2; rw [he, h2]; unfold over srcAlpha; norm_num
  · intro h2; rw [he, h2]; unfold over srcAlpha; norm_num

/-- C4 amended-claim witness: the second overlapping circle raises the
alpha of an already painted pixel from `4/5` to `24/25`. -/
theorem mask_paint_accumulates_witness :
    alphaAt ([PaintOp.circle 0 0 40] ++ [PaintOp.circle 20 0 40]) (0, 0)
      = 24 / 25 :=
  (mask_paint_accumulates [PaintOp.circle 0 0 40] (PaintOp.circle 20 0 40)
    (0, 0) cov_c2_origin).2.2 alphaAt_single_origin

/-- C10: while masking is enabled, any `mouseup`/`mouseleave`/`touchend`
event exports the current raster as the finalized mask without consulting
the in-stroke flag; in particular the event sequence consisting of a lone
pointer-up on a fresh masking session (no pointer-down ever fired)
finalizes a non-null mask whose raster paints nothing — every pixel has
alpha `0`. -/
theorem maskFinalize_ignores_stroke_flag (s : AppState) (x y : Rat)
    (h : s.isMasking = true) :
    (handleMaskDraw s (MaskEvent.up x y)).maskDataUrl = some s.maskRaster ∧
    (handleMaskDraw s (MaskEvent.up x y)).isDrawing = false ∧
    (handleMaskDraw maskingFreshState (MaskEvent.up x y)).maskDataUrl
      = some ([] : Raster) ∧
    (∀ p : Pixel, alphaAt ([] : Raster) p = 0) := by
  refine ⟨?_, ?_, ?_, fun p => rfl⟩
  · simp [handleMaskDraw, h]
  · simp [handleMaskDraw, h]
  · simp [handleMaskDraw, maskingFreshState, initialState]

/-- C10 witness: a lone pointer-up with masking enabled finalizes the
blank raster as the mask. -/
theorem maskFinalize_ignores_stroke_flag_witness :
    (handleMaskDraw maskingFreshState (MaskEvent.up 5 5)).maskDataUrl
      = some maskingFreshState.maskRaster :=
  (maskFinalize_ignores_stroke_flag maskingFreshState 5 5 rfl).1

/-! ### Magic Fill submission -/

/-- The state after enabling masking and then firing a single pointer-up:
the mask is finalized with zero painted pixels. -/
def zeroPixelMaskState : AppState :=
  handleMaskDraw maskingFreshState (MaskEvent.up 0 0)

/-- C5 counterexample: a finalized mask with zero painted pixels is not
rejected — `handleMagicFill` dispatches the remote fill call for it (the
painted-pixel content of the mask is never inspected), contradicting the
claim that such a submission is an InputError that never reaches the
remote collaborator. -/
theorem magicFill_zeroPixelMask_cex :
    zeroPixelMaskState.maskDataUrl = some ([] : Raster) ∧
    alphaAt ([] : Raster) (0, 0) = 0 ∧
    (handleMagicFill zeroPixelMaskState "a field of wildflowers").2
      = FillAction.invokeRemote [] "a field of wildflowers" ∧
    (handleMagicFill zeroPixelMaskState "a field of wildflowers").1
      = zeroPixelMaskState := by
  exact ⟨rfl, rfl, rfl, rfl⟩

/-- C5 (amended): a Magic Fill submission is rejected with a user-visible
error toast and no other state change exactly when no mask has been
finalized; an empty instruction never reaches `handleMagicFill` because
the panel's submit button is disabled whenever the trimmed instruction is
empty (or no mask exists, or a request is in flight) — no error is raised
for it; and a finalized mask is forwarded to the remote fill call whatever
its painted content, including a mask with zero painted pixels. -/
theorem magicFill_rejection_spec (s : AppState) (p : String) (m : Raster)
    (lo hm : Bool) (q : String) :
    (s.maskDataUrl = none →
      (handleMagicFill s p).2 = FillAction.rejectNoMask ∧
      (handleMagicFill s p).1.history = s.history ∧
      (handleMagicFill s p).1.historyIndex = s.historyIndex ∧
      (handleMagicFill s p).1.maskDataUrl = s.maskDataUrl ∧
      (handleMagicFill s p).1.toasts = s.toasts ++
        [{ message := "Please draw a mask first.", ttype := ToastType.error }]) ∧
    (s.maskDataUrl = some m →
      handleMagicFill s p = (s, FillAction.invokeRemote m p)) ∧
    (jsTrim q = "" → magicSubmitDisabled lo q hm = true) := by
  refine ⟨?_, ?_, ?_⟩
  · intro h
    refine ⟨?_, ?_, ?_, ?_, ?_⟩ <;> simp [handleMagicFill, h, addToast]
  · intro h
    simp [handleMagicFill, h]
  · intro h
    simp [magicSubmitDisabled, h]

/-- C5 amended-claim witness: with no finalized mask the submission is
rejected; with the zero-pixel finalized mask it is dispatched; with a
whitespace-only instruction the submit button is disabled. -/
theorem magicFill_rejection_spec_witness :
    (handleMagicFill initialState "x").2 = FillAction.rejectNoMask ∧
    handleMagicFill zeroPixelMaskState "x"
      = (zeroPixelMaskState, FillAction.invokeRemote [] "x") ∧
    magicSubmitDisabled false "  " true = true := by
  have h := magicFill_rejection_spec initialState "x" [] false true "  "
  have h2 := magicFill_rejection_spec zeroPixelMaskState "x" [] false true "  "
  exact ⟨(h.1 rfl).1, h2.2.1 rfl, h.2.2 (by decide)⟩

/-! ### Veo polling loop -/

theorem pollVeo_never_done (step : Nat → Except String Bool)
    (h : ∀ m, step m = Except.ok false) (fuel n : Nat) :
    pollVeo step fuel n = none := by
  induction fuel generalizing n with
  | zero => rfl
  | succ f ih =>
      unfold pollVeo
      rw [h n]
      simp [ih (n + 1)]

theorem pollVeo_done_spec (step : Nat → Except String Bool) (fuel n k : Nat)
    (ws : List Nat) (h : pollVeo step fuel n = some (Except.ok k, ws)) :
    step k = Except.ok true ∧ n ≤ k ∧
    (∀ m, n ≤ m → m < k → step m = Except.ok false) ∧
    ws.length = k - n ∧ (∀ d ∈ ws, d = pollIntervalMs) := by
  induction fuel generalizing n ws with
  | zero => simp [pollVeo] at h
  | succ f ih =>
      unfold pollVeo at h
      cases hs : step n with
      | error e => rw [hs] at h; simp at h
      | ok b =>
        cases b with
        | true =>
            rw [hs] at h
            simp at h
            obtain ⟨hk, hw⟩ := h
            subst hk
            subst hw
            exact ⟨hs, le_refl n, fun m h1 h2 => absurd h1 (by omega),
              by simp, by simp⟩
        | false =>
            rw [hs] at h
            cases hr : pollVeo step f (n + 1) with
            | none => rw [hr] at h; simp at h
            | some r =>
                rw [hr] at h
                simp at h
                obtain ⟨hk, hw⟩ := h
                obtain ⟨res, ws'⟩ := r
                simp at hk hw
                subst hk
                subst hw
                obtain ⟨g1, g2, g3, g4, g5⟩ := ih (n + 1) ws' hr
                refine ⟨g1, by omega, ?_, by simp [g4]; omega, ?_⟩
                · intro m hm1 hm2
                  rcases Nat.eq_or_lt_of_le hm1 with he | hl
                  · rw [he] at hs; exact hs
                  · exact g3 m hl hm2
                · intro d hd
                  rcases List.mem_cons.mp hd with he | hm
                  · exact he
                  · exact g5 d hm

/-- C9: the `generateVeoVideo` polling loop sleeps a fixed
`pollIntervalMs = 5000` between polls with no backoff and no bound of its
own: when the remote operation never reports done the loop is still
running after any number of checks; it returns at the first index whose
`done` flag is observed true (reporting one 5000 ms sleep per re-poll),
and it returns immediately with no sleeps when the operation is already
done. -/
theorem generateVeoVideo_polling_spec (step : Nat → Except String Bool)
    (fuel n k : Nat) (ws : List Nat) :
    pollIntervalMs = 5000 ∧
    ((∀ m, step m = Except.ok false) → pollVeo step fuel n = none) ∧
    (step n = Except.ok true → 0 < fuel →
      pollVeo step fuel n = some (Except.ok n, [])) ∧
    (pollVeo step fuel n = some (Except.ok k, ws) →
      step k = Except.ok true ∧ n ≤ k ∧
      (∀ m, n ≤ m → m < k → step m = Except.ok false) ∧
      ws.length = k - n ∧ (∀ d ∈ ws, d = pollIntervalMs)) := by
  refine ⟨rfl, fun h => pollVeo_never_done step h fuel n, ?_,
    fun h => pollVeo_done_spec step fuel n k ws h⟩
  intro h hf
  cases fuel with
  | zero => omega
  | succ f =>
      unfold pollVeo
      rw [h]

/-- Example remote operation for the C9 witness: reports done from the
second re-poll on. -/
def stepEx : Nat → Except String Bool := fun m => Except.ok (decide (2 ≤ m))

/-- C9 witness: on `stepEx` the loop terminates at index 2 after exactly
two sleeps of 5000 ms each. -/
theorem generateVeoVideo_polling_spec_witness :
    pollVeo stepEx 5 0 = some (Except.ok 2, [5000, 5000]) ∧
    stepEx 2 = Except.ok true ∧
    [5000, 5000].length = 2 - 0 := by
  have hp : pollVeo stepEx 5 0 = some (Except.ok 2, [5000, 5000]) := rfl
  have h := generateVeoVideo_polling_spec stepEx 5 0 2 [5000, 5000]
  exact ⟨hp, (h.2.2.2 hp).1, (h.2.2.2 hp).2.2.2.1⟩

end Pixshop
